import Mathlib

/-!
Shallow embedding of the pinch-zoom/pan gesture-to-transform engine
(`PinchZoom` component, `src/unnamed/part_000`) over exact rational
arithmetic.  Pure helpers of the source become Lean functions; the
mutable per-instance fields become an explicit `State` record threaded
through the operations; animations become folds over the list of eased
progress values delivered by the frame loop, the final frame always
receiving progress 1 (as in `_animate`).
-/

namespace PinchZoom

/-- A 2D point, used for offsets, touch positions, velocities and centers. -/
structure Point where
  x : ℚ
  y : ℚ
  deriving DecidableEq, Repr

/-- The `zeroPoint` constant of the source. -/
def zeroPoint : Point := ⟨0, 0⟩

/-- `clamp(min, max, value)` from the source: lower bound wins first. -/
def clamp (lo hi value : ℚ) : ℚ :=
  if value < lo then lo else if value > hi then hi else value

/-- `isCloseTo(value, expected)` from the source, tolerance 0.01 strict on both sides. -/
def isCloseTo (value expected : ℚ) : Bool :=
  decide (value > expected - 0.01) && decide (value < expected + 0.01)

/-- The configuration props of the component that the transform engine reads
(subset of `defaultProps` relevant to the embedded operations). -/
structure Config where
  minZoom : ℚ
  maxZoom : ℚ
  tapZoomFactor : ℚ
  zoomOutFactor : ℚ
  horizontalPadding : ℚ
  verticalPadding : ℚ
  wheelScaleFactor : ℚ
  lockDragAxis : Bool
  draggableUnZoomed : Bool
  inertia : Bool
  inertiaFriction : ℚ
  deriving DecidableEq, Repr

/-- The default prop values of the source (`static defaultProps`). -/
def defaultConfig : Config :=
  { minZoom := 0.5
    maxZoom := 5
    tapZoomFactor := 1
    zoomOutFactor := 1.3
    horizontalPadding := 0
    verticalPadding := 0
    wheelScaleFactor := 1500
    lockDragAxis := false
    draggableUnZoomed := true
    inertia := true
    inertiaFriction := 0.96 }

/-- Host-surface geometry: the container bounding rect (via
`_getContainerRect`), the page scroll offsets, and the natural size of the
wrapped child (via `_getChildSize`). -/
structure Geom where
  containerWidth : ℚ
  containerHeight : ℚ
  containerTop : ℚ
  containerLeft : ℚ
  scrollTop : ℚ
  scrollLeft : ℚ
  childWidth : ℚ
  childHeight : ℚ
  deriving DecidableEq, Repr

/-- The transform fields of the component instance: `_offset`, `_zoomFactor`,
`_initialZoomFactor` and `_initialOffset`. -/
structure State where
  offset : Point
  zoomFactor : ℚ
  initialZoomFactor : ℚ
  initialOffset : Point
  deriving DecidableEq, Repr

/-- `_addOffset(offset)`: componentwise addition onto the current offset. -/
def addOffset (st : State) (o : Point) : State :=
  { st with offset := ⟨st.offset.x + o.x, st.offset.y + o.y⟩ }

/-- `_scaleZoomFactor(scale)`: multiplies the zoom factor, clamps it into
`[minZoom, maxZoom]` and returns the new state together with the effective
multiplier actually applied (`new zoomFactor / original zoomFactor`). -/
def scaleZoomFactor (cfg : Config) (st : State) (s : ℚ) : State × ℚ :=
  let z := clamp cfg.minZoom cfg.maxZoom (st.zoomFactor * s)
  ({ st with zoomFactor := z }, z / st.zoomFactor)

/-- `_scale(scale, center)`: applies `_scaleZoomFactor`, then shifts the
offset by `(effectiveScale - 1) * (center + offset)` on each axis. -/
def scale (cfg : Config) (st : State) (s : ℚ) (center : Point) : State :=
  let p := scaleZoomFactor cfg st s
  addOffset p.1 ⟨(p.2 - 1) * (center.x + p.1.offset.x),
                 (p.2 - 1) * (center.y + p.1.offset.y)⟩

/-- `_scaleTo(zoomFactor, center)`: scales by `zoomFactor / current zoomFactor`. -/
def scaleTo (cfg : Config) (st : State) (zf : ℚ) (center : Point) : State :=
  scale cfg st (zf / st.zoomFactor) center

/-- `_canDrag()`: `draggableUnZoomed || !isCloseTo(zoomFactor, 1)`. -/
def canDrag (cfg : Config) (st : State) : Bool :=
  cfg.draggableUnZoomed || !(isCloseTo st.zoomFactor 1)

/-- `_drag(center, lastCenter)`: when a previous point exists, adds the
inverted screen delta to the offset (the smaller-magnitude axis is zeroed
when `lockDragAxis` is set) and fires `onDragUpdate`; otherwise does
nothing.  The boolean records whether `onDragUpdate` fired. -/
def drag (cfg : Config) (st : State) (center : Point)
    (lastCenter : Option Point) : State × Bool :=
  match lastCenter with
  | none => (st, false)
  | some lc =>
    (if !cfg.lockDragAxis then
       addOffset st ⟨-(center.x - lc.x), -(center.y - lc.y)⟩
     else if |-(center.x - lc.x)| > |-(center.y - lc.y)| then
       addOffset st ⟨-(center.x - lc.x), 0⟩
     else
       addOffset st ⟨0, -(center.y - lc.y)⟩,
     true)

/-- `_sanitizeOffset(offset)`: clamps each axis of the offset into the range
derived from the scaled content size, the container size and the paddings. -/
def sanitizeOffset (cfg : Config) (geom : Geom) (st : State) (offset : Point) : Point :=
  let elWidth := geom.childWidth * st.initialZoomFactor * st.zoomFactor
  let elHeight := geom.childHeight * st.initialZoomFactor * st.zoomFactor
  let maxX := elWidth - geom.containerWidth + cfg.horizontalPadding
  let maxY := elHeight - geom.containerHeight + cfg.verticalPadding
  let maxOffsetX := max maxX 0
  let maxOffsetY := max maxY 0
  let minOffsetX := min maxX 0 - cfg.horizontalPadding
  let minOffsetY := min maxY 0 - cfg.verticalPadding
  ⟨clamp minOffsetX maxOffsetX offset.x, clamp minOffsetY maxOffsetY offset.y⟩

/-- `_isInsaneOffset()`: the sanitized offset differs from the current one. -/
def isInsaneOffset (cfg : Config) (geom : Geom) (st : State) : Bool :=
  decide (sanitizeOffset cfg geom st st.offset ≠ st.offset)

/-- `_getCurrentZoomCenter()`. -/
def getCurrentZoomCenter (st : State) : Point :=
  let offsetLeft := st.offset.x - st.initialOffset.x
  let offsetTop := st.offset.y - st.initialOffset.y
  ⟨-1 * st.offset.x - offsetLeft / (1 / st.zoomFactor - 1),
   -1 * st.offset.y - offsetTop / (1 / st.zoomFactor - 1)⟩

/-- `_updateInitialZoomFactor()`: the fit-to-container scale
`min(containerWidth / childWidth, containerHeight / childHeight)`. -/
def updateInitialZoomFactor (geom : Geom) : ℚ :=
  min (geom.containerWidth / geom.childWidth) (geom.containerHeight / geom.childHeight)

/-- `_computeInitialOffset()` for a given initial zoom factor `i`. -/
def computeInitialOffset (geom : Geom) (i : ℚ) : Point :=
  ⟨-|geom.childWidth * i - geom.containerWidth| / 2,
   -|geom.childHeight * i - geom.containerHeight| / 2⟩

/-- The offset-clamping formula as the specification states it: the lower
bound is claimed to be `min(elW - containerWidth, 0) - hPadding` (the
padding *outside* the `min`), and symmetrically for y. -/
def specClaimedSanitizeOffset (cfg : Config) (geom : Geom) (st : State)
    (offset : Point) : Point :=
  let elWidth := geom.childWidth * st.initialZoomFactor * st.zoomFactor
  let elHeight := geom.childHeight * st.initialZoomFactor * st.zoomFactor
  let maxOffsetX := max (elWidth - geom.containerWidth + cfg.horizontalPadding) 0
  let maxOffsetY := max (elHeight - geom.containerHeight + cfg.verticalPadding) 0
  let minOffsetX := min (elWidth - geom.containerWidth) 0 - cfg.horizontalPadding
  let minOffsetY := min (elHeight - geom.containerHeight) 0 - cfg.verticalPadding
  ⟨clamp minOffsetX maxOffsetX offset.x, clamp minOffsetY maxOffsetY offset.y⟩

/-- The offset-clamping formula with the lower bound amended to what the code
computes: `min(elW - containerWidth + hPadding, 0) - hPadding`, the padding
*inside* the `min` as well, and symmetrically for y. -/
def specAmendedSanitizeOffset (cfg : Config) (geom : Geom) (st : State)
    (offset : Point) : Point :=
  let elWidth := geom.childWidth * st.initialZoomFactor * st.zoomFactor
  let elHeight := geom.childHeight * st.initialZoomFactor * st.zoomFactor
  let maxOffsetX := max (elWidth - geom.containerWidth + cfg.horizontalPadding) 0
  let maxOffsetY := max (elHeight - geom.containerHeight + cfg.verticalPadding) 0
  let minOffsetX := min (elWidth - geom.containerWidth + cfg.horizontalPadding) 0
      - cfg.horizontalPadding
  let minOffsetY := min (elHeight - geom.containerHeight + cfg.verticalPadding) 0
      - cfg.verticalPadding
  ⟨clamp minOffsetX maxOffsetX offset.x, clamp minOffsetY maxOffsetY offset.y⟩

/-- A normalized wheel event as the handler reads it. -/
structure WheelEvent where
  ctrlKey : Bool
  metaKey : Bool
  deltaY : ℚ
  deltaMode : ℕ
  pageX : ℚ
  pageY : ℚ
  deriving DecidableEq, Repr

/-- The default `shouldInterceptWheel` prop: true unless ctrl or meta is held. -/
def shouldInterceptWheel (e : WheelEvent) : Bool := !(e.ctrlKey || e.metaKey)

/-- `isZoomGesture(wheelEvent)`: mac pinch-trackpad gesture, `isMac && ctrlKey`. -/
def isZoomGesture (isMac : Bool) (e : WheelEvent) : Bool := isMac && e.ctrlKey

/-- Page coordinates converted to container-relative coordinates, as in
`_getOffsetTouches`: subtract container origin plus page scroll. -/
def offsetPointOfPage (geom : Geom) (p : Point) : Point :=
  ⟨p.x - (geom.containerLeft + geom.scrollLeft),
   p.y - (geom.containerTop + geom.scrollTop)⟩

/-- `_handlerWheel`: returns early (`none`) when the `shouldInterceptWheel`
prop returns true; otherwise cancels the event, derives the scale step from
`deltaY` (scaled 15x for line-mode deltas or mac pinch gestures), applies
`_scaleTo` around the pointer position and schedules the debounced settle
(the boolean of the result). -/
def handlerWheel (isMac : Bool) (pred : WheelEvent → Bool) (cfg : Config)
    (geom : Geom) (st : State) (e : WheelEvent) : Option (State × Bool) :=
  if pred e then none
  else
    let scaleDelta : ℚ := if isZoomGesture isMac e || decide (e.deltaMode = 1) then 15 else 1
    let center := offsetPointOfPage geom ⟨e.pageX, e.pageY⟩
    let dScale := e.deltaY * scaleDelta
    some (scaleTo cfg st (st.zoomFactor - dScale / cfg.wheelScaleFactor) center, true)

/-- The interaction states of the gesture state machine. -/
inductive Interaction where
  | drag : Interaction
  | zoom : Interaction
  deriving DecidableEq, Repr, Fintype

/-- The gesture lifecycle handlers an interaction transition can invoke. -/
inductive GestureEvent where
  | dragStart : GestureEvent
  | dragEnd : GestureEvent
  | zoomStart : GestureEvent
  | zoomEnd : GestureEvent
  | doubleTap : GestureEvent
  deriving DecidableEq, Repr, Fintype

/-- `_setInteraction(newInteraction)`: the new interaction value together
with the start/end handlers fired, in source order (when the interaction
changes, the old state's end handler fires only if the new interaction is
null; then the new state's start handler fires). -/
def setInteraction (cur new : Option Interaction) : Option Interaction × List GestureEvent :=
  if cur ≠ new then
    (new,
      (match cur, new with
       | some Interaction.zoom, none => [GestureEvent.zoomEnd]
       | some Interaction.drag, none => [GestureEvent.dragEnd]
       | _, _ => []) ++
      (match new with
       | some Interaction.zoom => [GestureEvent.zoomStart]
       | some Interaction.drag => [GestureEvent.dragStart]
       | none => []))
  else (new, [])

/-- `_updateInteraction(event)`: two fingers select zoom, one finger with
`_canDrag()` selects drag, anything else clears the interaction. -/
def updateInteraction (cfg : Config) (st : State) (fingers : ℕ)
    (cur : Option Interaction) : Option Interaction × List GestureEvent :=
  if fingers = 2 then setInteraction cur (some Interaction.zoom)
  else if fingers = 1 && canDrag cfg st then setInteraction cur (some Interaction.drag)
  else setInteraction cur none

/-- Squared distance between two points.  The source's `getDistance` is the
square root of this; it is zero exactly when this is zero, and the pinch
scale is the square root of the squared ratio embedded below. -/
def distSq (a b : Point) : ℚ :=
  (a.x - b.x) * (a.x - b.x) + (a.y - b.y) * (a.y - b.y)

/-- Division made explicitly fallible: `none` when the divisor is zero (in
the source this is an unguarded IEEE division producing Infinity or NaN). -/
def ratDiv? (a b : ℚ) : Option ℚ := if b = 0 then none else some (a / b)

/-- `calculateScale(startTouches, endTouches)` on squared distances: the
squared pinch scale, undefined (`none`) when the start touches coincide. -/
def calculateScaleSq (startTouches endTouches : List Point) : Option ℚ :=
  ratDiv? (distSq (endTouches.getD 0 zeroPoint) (endTouches.getD 1 zeroPoint))
          (distSq (startTouches.getD 0 zeroPoint) (startTouches.getD 1 zeroPoint))

/-- The zoom branch of `_handlerOnTouchMove` (non-first move): the pinch
scale computation runs exactly when start touches exist and both the start
and current touch lists have exactly two entries; the outer `Option` is that
guard, the inner one the fallible division of `calculateScale`. -/
def touchMoveZoomStep (startTouches : Option (List Point))
    (touches : List Point) : Option (Option ℚ) :=
  match startTouches with
  | none => none
  | some stl =>
    if stl.length = 2 ∧ touches.length = 2 then some (calculateScaleSq stl touches)
    else none

/-- The sequence of states produced by repeated `_scaleZoomFactor` calls, one
per requested multiplier. -/
def zoomTrajectory (cfg : Config) : State → List ℚ → List State
  | _, [] => []
  | st, s :: rest =>
    (scaleZoomFactor cfg st s).1 :: zoomTrajectory cfg (scaleZoomFactor cfg st s).1 rest

/-- The frame loop of `_zoomOutAnimation` run to completion: `updateProgress`
calls `_scaleTo(startZoomFactor + p * (1 - startZoomFactor), center)` with the
center captured at start; `frames` are the eased progress values of the
intermediate frames and the final frame always runs with progress 1. -/
def zoomOutRun (cfg : Config) (st : State) (frames : List ℚ) : State :=
  (frames ++ [1]).foldl
    (fun s p => scaleTo cfg s (st.zoomFactor + p * (1 - st.zoomFactor))
      (getCurrentZoomCenter st)) st

/-- `_zoomOutAnimation()`: early return when the zoom factor is exactly 1,
otherwise the animation toward zoom 1 around the current zoom center. -/
def zoomOutAnimation (cfg : Config) (st : State) (frames : List ℚ) : State :=
  if st.zoomFactor = 1 then st else zoomOutRun cfg st frames

/-- `_sanitizeOffsetAnimation()` at completion: every frame interpolates
between the start offset and the sanitized target captured at start, so the
final frame (progress 1) sets the offset to that target. -/
def sanitizeOffsetAnimationEnd (cfg : Config) (geom : Geom) (st : State) : State :=
  { st with offset := sanitizeOffset cfg geom st st.offset }

/-- `_sanitize()` (settle), with whichever correction animation it starts run
to completion: zoom-out correction when the zoom factor is below
`zoomOutFactor`, else offset correction when the offset is out of bounds. -/
def sanitizeRun (cfg : Config) (geom : Geom) (st : State) (frames : List ℚ) : State :=
  if st.zoomFactor < cfg.zoomOutFactor then zoomOutAnimation cfg st frames
  else if isInsaneOffset cfg geom st then sanitizeOffsetAnimationEnd cfg geom st
  else st

/-- The gesture-context fields of the component relevant to tap detection:
`_lastTouchStart`, `_isDoubleTap`, `_hasInteraction`, `_interaction` and the
inertia `_velocity`. -/
structure Gest where
  lastTouchStart : ℚ
  isDoubleTap : Bool
  hasInteraction : Bool
  interaction : Option Interaction
  velocity : Option Point
  deriving DecidableEq, Repr

/-- `_end()`: clears the interaction flag and runs `_sanitize` (modelled to
completion with the given eased frames). -/
def endGesture (cfg : Config) (geom : Geom) (g : Gest) (st : State)
    (endFrames : List ℚ) : Gest × State :=
  ({ g with hasInteraction := false }, sanitizeRun cfg geom st endFrames)

/-- The inertia decay loop of `_realizeInertia`, one iteration per animation
frame (`fuel` bounds the frames the driver delivers): decay the velocity by
`inertiaFriction`, stop when it reaches zero, else add it to the offset,
re-sanitize, and stop when the offset no longer moves. -/
def inertiaRun (cfg : Config) (geom : Geom) : ℕ → Point → State → State
  | 0, _, st => st
  | n + 1, v, st =>
    if v.x * cfg.inertiaFriction = 0 ∧ v.y * cfg.inertiaFriction = 0 then st
    else
      if sanitizeOffset cfg geom st
          ⟨st.offset.x + v.x * cfg.inertiaFriction,
           st.offset.y + v.y * cfg.inertiaFriction⟩ = st.offset then
        { st with offset := (sanitizeOffset cfg geom st
            ⟨st.offset.x + v.x * cfg.inertiaFriction,
             st.offset.y + v.y * cfg.inertiaFriction⟩) }
      else
        inertiaRun cfg geom n
          ⟨v.x * cfg.inertiaFriction, v.y * cfg.inertiaFriction⟩
          { st with offset := (sanitizeOffset cfg geom st
              ⟨st.offset.x + v.x * cfg.inertiaFriction,
               st.offset.y + v.y * cfg.inertiaFriction⟩) }

/-- `_realizeInertia()`: no-op when inertia is disabled or no velocity was
collected or the velocity is zero; otherwise clears the stored velocity and
runs the decay loop. -/
def realizeInertia (cfg : Config) (geom : Geom) (g : Gest) (st : State)
    (fuel : ℕ) : Gest × State :=
  if cfg.inertia = false then (g, st)
  else
    match g.velocity with
    | none => (g, st)
    | some v =>
      if v.x = 0 ∧ v.y = 0 then (g, st)
      else ({ g with velocity := none }, inertiaRun cfg geom fuel v st)

/-- `_handleZoomEnd()`: fires `onZoomEnd` and runs `_end()`. -/
def handleZoomEndRun (cfg : Config) (geom : Geom) (g : Gest) (st : State)
    (endFrames : List ℚ) : Gest × State × List GestureEvent :=
  ((endGesture cfg geom g st endFrames).1,
   (endGesture cfg geom g st endFrames).2, [GestureEvent.zoomEnd])

/-- `_handleDragEnd()`: fires `onDragEnd`, runs `_end()`, then releases
inertia. -/
def handleDragEndRun (cfg : Config) (geom : Geom) (g : Gest) (st : State)
    (endFrames : List ℚ) (fuel : ℕ) : Gest × State × List GestureEvent :=
  ((realizeInertia cfg geom (endGesture cfg geom g st endFrames).1
      (endGesture cfg geom g st endFrames).2 fuel).1,
   (realizeInertia cfg geom (endGesture cfg geom g st endFrames).1
      (endGesture cfg geom g st endFrames).2 fuel).2,
   [GestureEvent.dragEnd])

/-- `_handleDoubleTap(event)` with its animation run to completion: early
return while an interaction is active; otherwise fires `onDoubleTap`, sets
the double-tap flag, targets `zoomFactor + tapZoomFactor`, centers on the tap
point — or on the current zoom center when the target is below the current
zoom — and animates `_scaleTo` toward the target. -/
def handleDoubleTapRun (cfg : Config) (g : Gest) (st : State) (tapPoint : Point)
    (tapFrames : List ℚ) : Gest × State × List GestureEvent :=
  if g.hasInteraction then (g, st, [])
  else
    ({ g with isDoubleTap := true },
     (tapFrames ++ [1]).foldl
       (fun s p => scaleTo cfg s
         (st.zoomFactor + p * (st.zoomFactor + cfg.tapZoomFactor - st.zoomFactor))
         (if st.zoomFactor > st.zoomFactor + cfg.tapZoomFactor
          then getCurrentZoomCenter st else tapPoint)) st,
     [GestureEvent.doubleTap])

/-- `_detectDoubleTap(event)`: a touch start within 300 ms of the previous
single-finger touch start (multi-finger resets the timer to 0) triggers the
double-tap handler followed by the active interaction's end handler; the
single-finger timestamp is recorded either way. -/
def detectDoubleTapRun (cfg : Config) (geom : Geom) (g : Gest) (st : State)
    (time : ℚ) (fingers : ℕ) (tapPoint : Point) (tapFrames endFrames : List ℚ)
    (fuel : ℕ) : Gest × State × List GestureEvent :=
  let last : ℚ := if fingers > 1 then 0 else g.lastTouchStart
  if time - last < 300 then
    let r1 := handleDoubleTapRun cfg g st tapPoint tapFrames
    let r2 :=
      if r1.1.interaction = some Interaction.zoom then
        handleZoomEndRun cfg geom r1.1 r1.2.1 endFrames
      else if r1.1.interaction = some Interaction.drag then
        handleDragEndRun cfg geom r1.1 r1.2.1 endFrames fuel
      else (r1.1, r1.2.1, [])
    ({ r2.1 with lastTouchStart := if fingers = 1 then time else last },
     r2.2.1, r1.2.2 ++ r2.2.2)
  else
    ({ g with isDoubleTap := false,
              lastTouchStart := if fingers = 1 then time else last }, st, [])

/-- The concrete tap scenario used for C4: default props, a 100x100 container
with a 100x100 child (fit scale 1), zoom 1, three single-finger taps at
t = 1000, 1100, 1200 on the point (50, 50). -/
def tapScenarioGeom : Geom := ⟨100, 100, 0, 0, 0, 0, 100, 100⟩

/-- First tap of the scenario (no double tap fires, the timer is armed). -/
def tapScenarioStep1 : Gest × State × List GestureEvent :=
  detectDoubleTapRun defaultConfig tapScenarioGeom ⟨0, false, false, none, none⟩
    ⟨⟨0, 0⟩, 1, 1, ⟨0, 0⟩⟩ 1000 1 ⟨50, 50⟩ [] [] 0

/-- Second tap of the scenario, 100 ms after the first: a double tap. -/
def tapScenarioStep2 : Gest × State × List GestureEvent :=
  detectDoubleTapRun defaultConfig tapScenarioGeom tapScenarioStep1.1
    tapScenarioStep1.2.1 1100 1 ⟨50, 50⟩ [] [] 0

/-- Third tap of the scenario, 100 ms after the second: another double tap. -/
def tapScenarioStep3 : Gest × State × List GestureEvent :=
  detectDoubleTapRun defaultConfig tapScenarioGeom tapScenarioStep2.1
    tapScenarioStep2.2.1 1200 1 ⟨50, 50⟩ [] [] 0

theorem scaleZoomFactor_zoom (cfg : Config) (st : State) (s : ℚ) :
    (scaleZoomFactor cfg st s).1.zoomFactor
      = clamp cfg.minZoom cfg.maxZoom (st.zoomFactor * s) := rfl

theorem clamp_mem (lo hi v : ℚ) (h : lo ≤ hi) :
    lo ≤ clamp lo hi v ∧ clamp lo hi v ≤ hi := by
  unfold clamp
  split
  · exact ⟨le_refl lo, h⟩
  · split
    · exact ⟨h, le_refl hi⟩
    · next h1 h2 => exact ⟨le_of_not_lt h1, le_of_not_lt h2⟩

theorem clamp_of_mem (lo hi v : ℚ) (h1 : lo ≤ v) (h2 : v ≤ hi) :
    clamp lo hi v = v := by
  unfold clamp
  rw [if_neg (not_lt.mpr h1), if_neg (not_lt.mpr h2)]

/-- C1: with `minZoom ≤ maxZoom` and a starting zoom factor in
`[minZoom, maxZoom]`, every state reached along any sequence of
`_scaleZoomFactor` calls (the operation all pinch, wheel, double-tap and
`scaleTo` scale steps go through) has its zoom factor in `[minZoom, maxZoom]`. -/
theorem zoom_clamp_invariant (cfg : Config) (st : State) (ops : List ℚ)
    (hminmax : cfg.minZoom ≤ cfg.maxZoom)
    (_hst : cfg.minZoom ≤ st.zoomFactor ∧ st.zoomFactor ≤ cfg.maxZoom) :
    ∀ st' ∈ zoomTrajectory cfg st ops,
      cfg.minZoom ≤ st'.zoomFactor ∧ st'.zoomFactor ≤ cfg.maxZoom := by
  induction ops generalizing st with
  | nil => intro st' h; simp [zoomTrajectory] at h
  | cons s rest ih =>
    intro st' h
    simp only [zoomTrajectory, List.mem_cons] at h
    rcases h with h | h
    · subst h
      rw [scaleZoomFactor_zoom]
      exact clamp_mem _ _ _ hminmax
    · refine ih ((scaleZoomFactor cfg st s).1) ?_ st' h
      rw [scaleZoomFactor_zoom]
      exact clamp_mem _ _ _ hminmax

/-- Witness for C1 at a concrete input. -/
theorem zoom_clamp_invariant_witness :
    defaultConfig.minZoom ≤ defaultConfig.maxZoom ∧
    ∀ st' ∈ zoomTrajectory defaultConfig
        ⟨zeroPoint, 1, 1, zeroPoint⟩ [2, 100, 0],
      defaultConfig.minZoom ≤ st'.zoomFactor ∧ st'.zoomFactor ≤ defaultConfig.maxZoom :=
  ⟨by norm_num [defaultConfig],
   zoom_clamp_invariant defaultConfig ⟨zeroPoint, 1, 1, zeroPoint⟩ [2, 100, 0]
     (by norm_num [defaultConfig]) (by norm_num [defaultConfig])⟩

/-- C5: `_scale(k, center)` keeps the content point under the container
coordinate `center` fixed: `(center + offset) / (initialZoomFactor *
zoomFactor)` is unchanged by the call, on both axes, whenever the effective
scale `initialZoomFactor * zoomFactor` is nonzero before and after. -/
theorem scale_around_point_fixpoint (cfg : Config) (st : State) (k : ℚ)
    (center : Point)
    (hpre : st.initialZoomFactor * st.zoomFactor ≠ 0)
    (hpost : st.initialZoomFactor * (scale cfg st k center).zoomFactor ≠ 0) :
    ((center.x + (scale cfg st k center).offset.x) /
        (st.initialZoomFactor * (scale cfg st k center).zoomFactor) =
      (center.x + st.offset.x) / (st.initialZoomFactor * st.zoomFactor)) ∧
    ((center.y + (scale cfg st k center).offset.y) /
        (st.initialZoomFactor * (scale cfg st k center).zoomFactor) =
      (center.y + st.offset.y) / (st.initialZoomFactor * st.zoomFactor)) := by
  have hi : st.initialZoomFactor ≠ 0 := left_ne_zero_of_mul hpre
  have hz : st.zoomFactor ≠ 0 := right_ne_zero_of_mul hpre
  have hz' : (scale cfg st k center).zoomFactor ≠ 0 := right_ne_zero_of_mul hpost
  have hzval : (scale cfg st k center).zoomFactor
      = clamp cfg.minZoom cfg.maxZoom (st.zoomFactor * k) := rfl
  set c := clamp cfg.minZoom cfg.maxZoom (st.zoomFactor * k) with hc
  have hcz : c ≠ 0 := by rw [hzval] at hz'; exact hz'
  constructor
  · show (center.x + (st.offset.x + (c / st.zoomFactor - 1) * (center.x + st.offset.x))) /
        (st.initialZoomFactor * c)
      = (center.x + st.offset.x) / (st.initialZoomFactor * st.zoomFactor)
    field_simp
    ring
  · show (center.y + (st.offset.y + (c / st.zoomFactor - 1) * (center.y + st.offset.y))) /
        (st.initialZoomFactor * c)
      = (center.y + st.offset.y) / (st.initialZoomFactor * st.zoomFactor)
    field_simp
    ring

/-- Witness for C5 at a concrete input (zoom 1 scaled by 3, clamped to 3 by
the default bounds, around center (10, 20)). -/
theorem scale_around_point_fixpoint_witness :
    ((1 : ℚ) * (1 : ℚ) ≠ 0) ∧
    ((10 + (scale defaultConfig ⟨⟨4, 6⟩, 1, 1, zeroPoint⟩ 3 ⟨10, 20⟩).offset.x) /
        ((1 : ℚ) * (scale defaultConfig ⟨⟨4, 6⟩, 1, 1, zeroPoint⟩ 3 ⟨10, 20⟩).zoomFactor) =
      ((10 + 4) / ((1 : ℚ) * 1))) := by
  have h := scale_around_point_fixpoint defaultConfig ⟨⟨4, 6⟩, 1, 1, zeroPoint⟩ 3 ⟨10, 20⟩
    (by norm_num) (by norm_num [scale, scaleZoomFactor, clamp, defaultConfig, addOffset])
  exact ⟨by norm_num, h.1⟩

/-- C9: with `lockDragAxis = true`, a drag step whose screen delta is
`(10, 3)` changes only the x component of the offset (the y change is 0),
a step with delta `(3, 10)` changes only the y component, and in general,
per step, the axis with strictly smaller absolute delta is zeroed out. -/
theorem lock_drag_axis (cfg : Config) (st : State) (lc : Point)
    (hlock : cfg.lockDragAxis = true) :
    (∀ c : Point, |c.x - lc.x| < |c.y - lc.y| →
      (drag cfg st c (some lc)).1.offset
        = ⟨st.offset.x, st.offset.y - (c.y - lc.y)⟩) ∧
    (∀ c : Point, |c.y - lc.y| < |c.x - lc.x| →
      (drag cfg st c (some lc)).1.offset
        = ⟨st.offset.x - (c.x - lc.x), st.offset.y⟩) := by
  constructor
  · intro c hlt
    have hng : ¬ (|-(c.x - lc.x)| > |-(c.y - lc.y)|) := by
      rw [abs_neg, abs_neg]
      exact not_lt.mpr hlt.le
    show ((if !cfg.lockDragAxis then
             addOffset st ⟨-(c.x - lc.x), -(c.y - lc.y)⟩
           else if |-(c.x - lc.x)| > |-(c.y - lc.y)| then
             addOffset st ⟨-(c.x - lc.x), 0⟩
           else
             addOffset st ⟨0, -(c.y - lc.y)⟩,
           true) : State × Bool).1.offset
      = (⟨st.offset.x, st.offset.y - (c.y - lc.y)⟩ : Point)
    rw [hlock]
    show (if |-(c.x - lc.x)| > |-(c.y - lc.y)| then
            addOffset st ⟨-(c.x - lc.x), 0⟩
          else
            addOffset st ⟨0, -(c.y - lc.y)⟩).offset
      = (⟨st.offset.x, st.offset.y - (c.y - lc.y)⟩ : Point)
    rw [if_neg hng]
    show (⟨st.offset.x + 0, st.offset.y + -(c.y - lc.y)⟩ : Point) = _
    simp only [Point.mk.injEq]
    constructor <;> ring
  · intro c hlt
    have hpos : |-(c.x - lc.x)| > |-(c.y - lc.y)| := by
      rw [abs_neg, abs_neg]
      exact hlt
    show ((if !cfg.lockDragAxis then
             addOffset st ⟨-(c.x - lc.x), -(c.y - lc.y)⟩
           else if |-(c.x - lc.x)| > |-(c.y - lc.y)| then
             addOffset st ⟨-(c.x - lc.x), 0⟩
           else
             addOffset st ⟨0, -(c.y - lc.y)⟩,
           true) : State × Bool).1.offset
      = (⟨st.offset.x - (c.x - lc.x), st.offset.y⟩ : Point)
    rw [hlock]
    show (if |-(c.x - lc.x)| > |-(c.y - lc.y)| then
            addOffset st ⟨-(c.x - lc.x), 0⟩
          else
            addOffset st ⟨0, -(c.y - lc.y)⟩).offset
      = (⟨st.offset.x - (c.x - lc.x), st.offset.y⟩ : Point)
    rw [if_pos hpos]
    show (⟨st.offset.x + -(c.x - lc.x), st.offset.y + 0⟩ : Point) = _
    simp only [Point.mk.injEq]
    constructor <;> ring

/-- Witness for C9: the claim's two example deltas.  A step from the last
point `(0, 0)` to `(10, 3)` (screen delta `(10, 3)`) leaves the y offset
unchanged, and a step to `(3, 10)` leaves the x offset unchanged. -/
theorem lock_drag_axis_witness :
    (drag { defaultConfig with lockDragAxis := true } ⟨⟨100, 200⟩, 1, 1, zeroPoint⟩
        ⟨10, 3⟩ (some zeroPoint)).1.offset = (⟨90, 200⟩ : Point) ∧
    (drag { defaultConfig with lockDragAxis := true } ⟨⟨100, 200⟩, 1, 1, zeroPoint⟩
        ⟨3, 10⟩ (some zeroPoint)).1.offset = (⟨100, 190⟩ : Point) := by
  have h := lock_drag_axis { defaultConfig with lockDragAxis := true }
    ⟨⟨100, 200⟩, 1, 1, zeroPoint⟩ zeroPoint rfl
  have habs1 : |(10 : ℚ) - zeroPoint.x| = 10 := by
    rw [show (10 : ℚ) - zeroPoint.x = 10 by norm_num [zeroPoint]]
    norm_num
  have habs2 : |(3 : ℚ) - zeroPoint.y| = 3 := by
    rw [show (3 : ℚ) - zeroPoint.y = 3 by norm_num [zeroPoint]]
    norm_num
  have habs3 : |(3 : ℚ) - zeroPoint.x| = 3 := by
    rw [show (3 : ℚ) - zeroPoint.x = 3 by norm_num [zeroPoint]]
    norm_num
  have habs4 : |(10 : ℚ) - zeroPoint.y| = 10 := by
    rw [show (10 : ℚ) - zeroPoint.y = 10 by norm_num [zeroPoint]]
    norm_num
  constructor
  · have h1 := h.2 ⟨10, 3⟩ (by
      show |(3 : ℚ) - zeroPoint.y| < |(10 : ℚ) - zeroPoint.x|
      rw [habs2, habs1]
      norm_num)
    exact h1.trans (by norm_num [zeroPoint, Point.mk.injEq])
  · have h2 := h.1 ⟨3, 10⟩ (by
      show |(3 : ℚ) - zeroPoint.x| < |(10 : ℚ) - zeroPoint.y|
      rw [habs3, habs4]
      norm_num)
    exact h2.trans (by norm_num [zeroPoint, Point.mk.injEq])

/-- C10: `_drag(center, null)` — the situation of the first drag sample
after drag start, where the last drag position was reset to null — leaves
the state unchanged and fires no `onDragUpdate`; a sample with a non-null
previous point does fire `onDragUpdate`. -/
theorem drag_null_last_noop (cfg : Config) (st : State) (c : Point) :
    (drag cfg st c none).1 = st ∧ (drag cfg st c none).2 = false ∧
    ∀ lc : Point, (drag cfg st c (some lc)).2 = true := by
  refine ⟨rfl, rfl, ?_⟩
  intro lc
  rfl

/-- C7 counterexample: with horizontal padding 10, a 100-wide container and
content of effective width 97, the code clamps offset x = -12 to -10
(lower bound `min(elW - W + hPad, 0) - hPad = -10`), while the claimed
formula `min(elW - W, 0) - hPad = -13` would leave -12 unclamped. -/
theorem sanitize_offset_formula_counterexample :
    sanitizeOffset { defaultConfig with horizontalPadding := 10 }
        ⟨100, 100, 0, 0, 0, 0, 97, 100⟩ ⟨⟨-12, 0⟩, 1, 1, zeroPoint⟩ ⟨-12, 0⟩
      = (⟨-10, 0⟩ : Point) ∧
    specClaimedSanitizeOffset { defaultConfig with horizontalPadding := 10 }
        ⟨100, 100, 0, 0, 0, 0, 97, 100⟩ ⟨⟨-12, 0⟩, 1, 1, zeroPoint⟩ ⟨-12, 0⟩
      = (⟨-12, 0⟩ : Point) ∧
    sanitizeOffset { defaultConfig with horizontalPadding := 10 }
        ⟨100, 100, 0, 0, 0, 0, 97, 100⟩ ⟨⟨-12, 0⟩, 1, 1, zeroPoint⟩ ⟨-12, 0⟩
      ≠ specClaimedSanitizeOffset { defaultConfig with horizontalPadding := 10 }
        ⟨100, 100, 0, 0, 0, 0, 97, 100⟩ ⟨⟨-12, 0⟩, 1, 1, zeroPoint⟩ ⟨-12, 0⟩ := by
  refine ⟨?_, ?_, ?_⟩ <;>
    norm_num [sanitizeOffset, specClaimedSanitizeOffset, clamp, defaultConfig,
      zeroPoint, Point.mk.injEq]

/-- C7 (amended): `sanitizeOffset` clamps each axis into `[minX, maxX]` with
`maxX = max(elW - containerWidth + hPadding, 0)` and
`minX = min(elW - containerWidth + hPadding, 0) - hPadding` (the padding
also inside the `min`), and symmetrically for y. -/
theorem sanitize_offset_formula (cfg : Config) (geom : Geom) (st : State)
    (offset : Point) :
    sanitizeOffset cfg geom st offset = specAmendedSanitizeOffset cfg geom st offset := rfl

/-- C2 counterexample: a plain wheel event (no ctrl, no meta) is one the
default predicate says to intercept, yet `_handlerWheel` returns early and
does not process it. -/
theorem wheel_intercept_counterexample :
    shouldInterceptWheel ⟨false, false, 100, 0, 50, 60⟩ = true ∧
    handlerWheel false shouldInterceptWheel defaultConfig
        ⟨100, 100, 0, 0, 0, 0, 100, 100⟩ ⟨zeroPoint, 1, 1, zeroPoint⟩
        ⟨false, false, 100, 0, 50, 60⟩ = none := ⟨rfl, rfl⟩

/-- C2 (amended): `_handlerWheel` processes a wheel event exactly when the
`shouldInterceptWheel` predicate returns false; with the default predicate
the widget therefore processes the event exactly when ctrl or meta is held,
and otherwise leaves it to the page. -/
theorem wheel_intercept (isMac : Bool) (pred : WheelEvent → Bool) (cfg : Config)
    (geom : Geom) (st : State) (e : WheelEvent) :
    ((handlerWheel isMac pred cfg geom st e).isSome = !(pred e)) ∧
    ((handlerWheel isMac shouldInterceptWheel cfg geom st e).isSome
      = (e.ctrlKey || e.metaKey)) := by
  constructor
  · by_cases h : pred e = true
    · simp [handlerWheel, h]
    · simp only [Bool.not_eq_true] at h
      simp [handlerWheel, h]
  · by_cases h : (e.ctrlKey || e.metaKey) = true
    · simp [handlerWheel, shouldInterceptWheel, h]
    · simp only [Bool.or_eq_true, not_or, Bool.not_eq_true] at h
      simp [handlerWheel, shouldInterceptWheel, h.1, h.2]

/-- C3 counterexample: a direct transition from `drag` to `zoom` (a second
finger landing mid-drag) fires only `zoomStart`; the drag end handler (and
with it inertia release) does not run. -/
theorem interaction_end_counterexample :
    (setInteraction (some Interaction.drag) (some Interaction.zoom)).2
      = [GestureEvent.zoomStart] ∧
    GestureEvent.dragEnd ∉
      (setInteraction (some Interaction.drag) (some Interaction.zoom)).2 := by
  decide

/-- C3 (amended): an end handler runs exactly on a transition from its state
to the null interaction: `dragEnd` fires iff the old interaction is `drag`
and the new one is null, and `zoomEnd` fires iff the old interaction is
`zoom` and the new one is null; direct drag-to-zoom or zoom-to-drag
transitions fire only the new state's start handler. -/
theorem interaction_end_handlers :
    ∀ cur new : Option Interaction,
      (GestureEvent.dragEnd ∈ (setInteraction cur new).2 ↔
        cur = some Interaction.drag ∧ new = none) ∧
      (GestureEvent.zoomEnd ∈ (setInteraction cur new).2 ↔
        cur = some Interaction.zoom ∧ new = none) := by
  decide

/-- C8 counterexample: with coincident start touches and two distinct
current touches, the touch-move zoom branch runs (it is not skipped: the
guard checks only the touch counts) and the scale computation divides by a
zero start distance — the result is undefined, not 1. -/
theorem pinch_zero_distance_counterexample :
    touchMoveZoomStep (some [⟨0, 0⟩, ⟨0, 0⟩]) [⟨0, 0⟩, ⟨3, 4⟩] = some none ∧
    touchMoveZoomStep (some [⟨0, 0⟩, ⟨0, 0⟩]) [⟨0, 0⟩, ⟨3, 4⟩] ≠ none ∧
    touchMoveZoomStep (some [⟨0, 0⟩, ⟨0, 0⟩]) [⟨0, 0⟩, ⟨3, 4⟩] ≠ some (some 1) := by
  have h1 : touchMoveZoomStep (some [⟨0, 0⟩, ⟨0, 0⟩]) [⟨0, 0⟩, ⟨3, 4⟩] = some none := by
    norm_num [touchMoveZoomStep, calculateScaleSq, ratDiv?, distSq, zeroPoint]
  refine ⟨h1, by rw [h1]; simp, by rw [h1]; simp⟩

/-- C8 (amended): the pinch step of `_handlerOnTouchMove` no-ops whenever
fewer than two start or current touch points are present (it runs exactly
when both lists have exactly two entries), but the scale computation itself
is not guarded against coincident start touches: in that case the step still
runs and the division is undefined. -/
theorem pinch_guard :
    (∀ (sT : Option (List Point)) (t : List Point),
       touchMoveZoomStep sT t ≠ none ↔
         ∃ l, sT = some l ∧ l.length = 2 ∧ t.length = 2) ∧
    (∀ (l t : List Point), l.length = 2 → t.length = 2 →
       distSq (l.getD 0 zeroPoint) (l.getD 1 zeroPoint) = 0 →
       touchMoveZoomStep (some l) t = some none) := by
  constructor
  · intro sT t
    match sT with
    | none => simp [touchMoveZoomStep]
    | some l =>
      by_cases h : l.length = 2 ∧ t.length = 2
      · simp [touchMoveZoomStep, h]
      · simp [touchMoveZoomStep, h]
  · intro l t hl ht hz
    have hrun : touchMoveZoomStep (some l) t = some (calculateScaleSq l t) := by
      simp [touchMoveZoomStep, hl, ht]
    rw [hrun]
    simp only [calculateScaleSq, ratDiv?]
    rw [if_pos hz]

/-- Witness for C8 at a concrete input. -/
theorem pinch_guard_witness :
    touchMoveZoomStep (some [⟨1, 2⟩, ⟨1, 2⟩]) [⟨0, 0⟩, ⟨5, 5⟩] = some none :=
  pinch_guard.2 [⟨1, 2⟩, ⟨1, 2⟩] [⟨0, 0⟩, ⟨5, 5⟩] rfl rfl
    (by norm_num [distSq])

theorem scaleTo_step (cfg : Config) (s : State) (t : ℚ) (c : Point)
    (hz : s.zoomFactor ≠ 0) (hmin : cfg.minZoom ≤ t) (hmax : t ≤ cfg.maxZoom) :
    (scaleTo cfg s t c).zoomFactor = t ∧
    (c.x + (scaleTo cfg s t c).offset.x) * s.zoomFactor = (c.x + s.offset.x) * t ∧
    (c.y + (scaleTo cfg s t c).offset.y) * s.zoomFactor = (c.y + s.offset.y) * t ∧
    (scaleTo cfg s t c).initialZoomFactor = s.initialZoomFactor ∧
    (scaleTo cfg s t c).initialOffset = s.initialOffset := by
  have hmul : s.zoomFactor * (t / s.zoomFactor) = t := by field_simp
  have hclamp : clamp cfg.minZoom cfg.maxZoom (s.zoomFactor * (t / s.zoomFactor)) = t := by
    rw [hmul]
    exact clamp_of_mem _ _ _ hmin hmax
  have hzf : (scaleTo cfg s t c).zoomFactor = t := hclamp
  have hox : (scaleTo cfg s t c).offset.x
      = s.offset.x + (clamp cfg.minZoom cfg.maxZoom (s.zoomFactor * (t / s.zoomFactor))
          / s.zoomFactor - 1) * (c.x + s.offset.x) := rfl
  have hoy : (scaleTo cfg s t c).offset.y
      = s.offset.y + (clamp cfg.minZoom cfg.maxZoom (s.zoomFactor * (t / s.zoomFactor))
          / s.zoomFactor - 1) * (c.y + s.offset.y) := rfl
  rw [hclamp] at hox hoy
  refine ⟨hzf, ?_, ?_, rfl, rfl⟩
  · rw [hox]
    field_simp
    ring
  · rw [hoy]
    field_simp
    ring

theorem zoomOut_fold (cfg : Config) (c : Point) (z0 : ℚ)
    (hminpos : 0 < cfg.minZoom) (h1min : cfg.minZoom ≤ 1) (h1max : 1 ≤ cfg.maxZoom) :
    ∀ frames : List ℚ, (∀ p ∈ frames, 0 ≤ p ∧ p ≤ 1) →
      cfg.minZoom ≤ z0 → z0 ≤ cfg.maxZoom →
      ∀ s : State, cfg.minZoom ≤ s.zoomFactor → s.zoomFactor ≤ cfg.maxZoom →
        ((frames ++ [1]).foldl
            (fun s' p => scaleTo cfg s' (z0 + p * (1 - z0)) c) s).zoomFactor = 1 ∧
        (c.x + ((frames ++ [1]).foldl
            (fun s' p => scaleTo cfg s' (z0 + p * (1 - z0)) c) s).offset.x) * s.zoomFactor
          = c.x + s.offset.x ∧
        (c.y + ((frames ++ [1]).foldl
            (fun s' p => scaleTo cfg s' (z0 + p * (1 - z0)) c) s).offset.y) * s.zoomFactor
          = c.y + s.offset.y ∧
        ((frames ++ [1]).foldl
            (fun s' p => scaleTo cfg s' (z0 + p * (1 - z0)) c) s).initialZoomFactor
          = s.initialZoomFactor ∧
        ((frames ++ [1]).foldl
            (fun s' p => scaleTo cfg s' (z0 + p * (1 - z0)) c) s).initialOffset
          = s.initialOffset := by
  intro frames
  induction frames with
  | nil =>
    intro _ hz0min hz0max s hsmin hsmax
    have hone : z0 + 1 * (1 - z0) = 1 := by ring
    have hz : s.zoomFactor ≠ 0 := ne_of_gt (lt_of_lt_of_le hminpos hsmin)
    have h := scaleTo_step cfg s (z0 + 1 * (1 - z0)) c hz
      (by rw [hone]; exact h1min) (by rw [hone]; exact h1max)
    simp only [List.nil_append, List.foldl_cons, List.foldl_nil]
    refine ⟨?_, ?_, ?_, h.2.2.2.1, h.2.2.2.2⟩
    · rw [h.1, hone]
    · rw [h.2.1, hone, mul_one]
    · rw [h.2.2.1, hone, mul_one]
  | cons p rest ih =>
    intro hmem hz0min hz0max s hsmin hsmax
    have hp := hmem p (List.mem_cons_self p rest)
    have hrest : ∀ q ∈ rest, 0 ≤ q ∧ q ≤ 1 := fun q hq => hmem q (List.mem_cons_of_mem p hq)
    have htmin : cfg.minZoom ≤ z0 + p * (1 - z0) := by
      have e : z0 + p * (1 - z0) - cfg.minZoom
          = (1 - p) * (z0 - cfg.minZoom) + p * (1 - cfg.minZoom) := by ring
      have n1 : 0 ≤ (1 - p) * (z0 - cfg.minZoom) :=
        mul_nonneg (by linarith [hp.2]) (by linarith)
      have n2 : 0 ≤ p * (1 - cfg.minZoom) := mul_nonneg hp.1 (by linarith)
      linarith
    have htmax : z0 + p * (1 - z0) ≤ cfg.maxZoom := by
      have e : cfg.maxZoom - (z0 + p * (1 - z0))
          = (1 - p) * (cfg.maxZoom - z0) + p * (cfg.maxZoom - 1) := by ring
      have n1 : 0 ≤ (1 - p) * (cfg.maxZoom - z0) :=
        mul_nonneg (by linarith [hp.2]) (by linarith)
      have n2 : 0 ≤ p * (cfg.maxZoom - 1) := mul_nonneg hp.1 (by linarith)
      linarith
    have hz : s.zoomFactor ≠ 0 := ne_of_gt (lt_of_lt_of_le hminpos hsmin)
    have hstep := scaleTo_step cfg s (z0 + p * (1 - z0)) c hz htmin htmax
    have hs1min : cfg.minZoom ≤ (scaleTo cfg s (z0 + p * (1 - z0)) c).zoomFactor := by
      rw [hstep.1]; exact htmin
    have hs1max : (scaleTo cfg s (z0 + p * (1 - z0)) c).zoomFactor ≤ cfg.maxZoom := by
      rw [hstep.1]; exact htmax
    have hIH := ih hrest hz0min hz0max (scaleTo cfg s (z0 + p * (1 - z0)) c) hs1min hs1max
    have hfold : ((p :: rest) ++ [1]).foldl
        (fun s' q => scaleTo cfg s' (z0 + q * (1 - z0)) c) s
        = (rest ++ [1]).foldl (fun s' q => scaleTo cfg s' (z0 + q * (1 - z0)) c)
            (scaleTo cfg s (z0 + p * (1 - z0)) c) := by
      simp only [List.cons_append, List.foldl_cons]
    rw [hfold]
    have ht0 : z0 + p * (1 - z0) ≠ 0 := ne_of_gt (lt_of_lt_of_le hminpos htmin)
    refine ⟨hIH.1, ?_, ?_, hIH.2.2.2.1.trans hstep.2.2.2.1,
      hIH.2.2.2.2.trans hstep.2.2.2.2⟩
    · have A := hIH.2.1
      rw [hstep.1] at A
      have B := hstep.2.1
      have key : ((c.x + ((rest ++ [1]).foldl
            (fun s' q => scaleTo cfg s' (z0 + q * (1 - z0)) c)
            (scaleTo cfg s (z0 + p * (1 - z0)) c)).offset.x) * s.zoomFactor)
            * (z0 + p * (1 - z0))
          = (c.x + s.offset.x) * (z0 + p * (1 - z0)) := by
        linear_combination s.zoomFactor * A + B
      exact mul_right_cancel₀ ht0 key
    · have A := hIH.2.2.1
      rw [hstep.1] at A
      have B := hstep.2.2.1
      have key : ((c.y + ((rest ++ [1]).foldl
            (fun s' q => scaleTo cfg s' (z0 + q * (1 - z0)) c)
            (scaleTo cfg s (z0 + p * (1 - z0)) c)).offset.y) * s.zoomFactor)
            * (z0 + p * (1 - z0))
          = (c.y + s.offset.y) * (z0 + p * (1 - z0)) := by
        linear_combination s.zoomFactor * A + B
      exact mul_right_cancel₀ ht0 key

theorem getCurrentZoomCenter_spec (st : State) (hz0 : st.zoomFactor ≠ 0)
    (hz1 : st.zoomFactor ≠ 1) :
    (getCurrentZoomCenter st).x * (1 - st.zoomFactor)
      = -(st.offset.x) * (1 - st.zoomFactor)
        - (st.offset.x - st.initialOffset.x) * st.zoomFactor ∧
    (getCurrentZoomCenter st).y * (1 - st.zoomFactor)
      = -(st.offset.y) * (1 - st.zoomFactor)
        - (st.offset.y - st.initialOffset.y) * st.zoomFactor := by
  have hzsub : 1 - st.zoomFactor ≠ 0 := sub_ne_zero.mpr fun h => hz1 h.symm
  constructor
  · show (-1 * st.offset.x - (st.offset.x - st.initialOffset.x)
        / (1 / st.zoomFactor - 1)) * (1 - st.zoomFactor) = _
    rw [show 1 / st.zoomFactor - 1 = (1 - st.zoomFactor) / st.zoomFactor by field_simp]
    rw [div_div_eq_mul_div]
    field_simp
  · show (-1 * st.offset.y - (st.offset.y - st.initialOffset.y)
        / (1 / st.zoomFactor - 1)) * (1 - st.zoomFactor) = _
    rw [show 1 / st.zoomFactor - 1 = (1 - st.zoomFactor) / st.zoomFactor by field_simp]
    rw [div_div_eq_mul_div]
    field_simp

theorem sanitizeOffset_idem (cfg : Config) (geom : Geom) (st : State) (x : Point)
    (hhp : 0 ≤ cfg.horizontalPadding) (hvp : 0 ≤ cfg.verticalPadding) :
    sanitizeOffset cfg geom st (sanitizeOffset cfg geom st x)
      = sanitizeOffset cfg geom st x := by
  have key : ∀ m pad v : ℚ, 0 ≤ pad →
      clamp (min m 0 - pad) (max m 0) (clamp (min m 0 - pad) (max m 0) v)
        = clamp (min m 0 - pad) (max m 0) v := by
    intro m pad v hpad
    have hlohi : min m 0 - pad ≤ max m 0 := by
      have h1 : min m 0 ≤ max m 0 := le_trans (min_le_right m 0) (le_max_right m 0)
      linarith
    have hmem := clamp_mem (min m 0 - pad) (max m 0) v hlohi
    exact clamp_of_mem _ _ _ hmem.1 hmem.2
  simp only [sanitizeOffset]
  rw [Point.mk.injEq]
  exact ⟨key _ _ _ hhp, key _ _ _ hvp⟩

theorem initialOffset_in_bounds (cfg : Config) (geom : Geom) (r : State)
    (hz : r.zoomFactor = 1)
    (hizf : r.initialZoomFactor = updateInitialZoomFactor geom)
    (hoff : r.offset = computeInitialOffset geom r.initialZoomFactor)
    (hw : 0 < geom.childWidth) (hh : 0 < geom.childHeight)
    (hhp : 0 ≤ cfg.horizontalPadding) (hvp : 0 ≤ cfg.verticalPadding) :
    sanitizeOffset cfg geom r r.offset = r.offset := by
  have hiw : geom.childWidth * r.initialZoomFactor ≤ geom.containerWidth := by
    rw [hizf]
    have h1 : updateInitialZoomFactor geom ≤ geom.containerWidth / geom.childWidth :=
      min_le_left _ _
    calc geom.childWidth * updateInitialZoomFactor geom
        ≤ geom.childWidth * (geom.containerWidth / geom.childWidth) :=
          mul_le_mul_of_nonneg_left h1 (le_of_lt hw)
      _ = geom.containerWidth := by field_simp
  have hih : geom.childHeight * r.initialZoomFactor ≤ geom.containerHeight := by
    rw [hizf]
    have h1 : updateInitialZoomFactor geom ≤ geom.containerHeight / geom.childHeight :=
      min_le_right _ _
    calc geom.childHeight * updateInitialZoomFactor geom
        ≤ geom.childHeight * (geom.containerHeight / geom.childHeight) :=
          mul_le_mul_of_nonneg_left h1 (le_of_lt hh)
      _ = geom.containerHeight := by field_simp
  have key : ∀ a pad : ℚ, a ≤ 0 → 0 ≤ pad →
      clamp (min (a + pad) 0 - pad) (max (a + pad) 0) (-|a| / 2) = -|a| / 2 := by
    intro a pad ha hpad
    rw [abs_of_nonpos ha]
    apply clamp_of_mem
    · rcases le_or_lt (a + pad) 0 with h | h
      · rw [min_eq_left h]
        linarith
      · rw [min_eq_right (le_of_lt h)]
        linarith
    · have h0 : (0 : ℚ) ≤ max (a + pad) 0 := le_max_right _ _
      linarith
  have ex : sanitizeOffset cfg geom r r.offset
      = ⟨clamp (min (geom.childWidth * r.initialZoomFactor - geom.containerWidth
              + cfg.horizontalPadding) 0 - cfg.horizontalPadding)
            (max (geom.childWidth * r.initialZoomFactor - geom.containerWidth
              + cfg.horizontalPadding) 0) r.offset.x,
          clamp (min (geom.childHeight * r.initialZoomFactor - geom.containerHeight
              + cfg.verticalPadding) 0 - cfg.verticalPadding)
            (max (geom.childHeight * r.initialZoomFactor - geom.containerHeight
              + cfg.verticalPadding) 0) r.offset.y⟩ := by
    simp only [sanitizeOffset, hz, mul_one]
  have hrx : r.offset.x
      = -|geom.childWidth * r.initialZoomFactor - geom.containerWidth| / 2 := by
    rw [hoff]; rfl
  have hry : r.offset.y
      = -|geom.childHeight * r.initialZoomFactor - geom.containerHeight| / 2 := by
    rw [hoff]; rfl
  rw [ex]
  conv_lhs => rw [hrx, hry]
  rw [key _ _ (by linarith) hhp, key _ _ (by linarith) hvp]
  rw [← hrx, ← hry]

/-- C6 counterexample: at zoom factor exactly 1 (below the default
`zoomOutFactor` 1.3) with an out-of-bounds offset, `_sanitize` takes the
zoom-out branch, whose animation early-returns at zoom 1, so settle starts no
correction at all and leaves an offset that is not a fixed point of
`sanitizeOffset`. -/
theorem settle_offset_counterexample :
    sanitizeRun defaultConfig ⟨100, 100, 0, 0, 0, 0, 100, 100⟩
        ⟨⟨50, 0⟩, 1, 1, ⟨0, 0⟩⟩ [] = ⟨⟨50, 0⟩, 1, 1, ⟨0, 0⟩⟩ ∧
    sanitizeOffset defaultConfig ⟨100, 100, 0, 0, 0, 0, 100, 100⟩
        ⟨⟨50, 0⟩, 1, 1, ⟨0, 0⟩⟩ ⟨50, 0⟩ = (⟨0, 0⟩ : Point) ∧
    ((⟨0, 0⟩ : Point) ≠ ⟨50, 0⟩) := by
  refine ⟨?_, ?_, ?_⟩
  · norm_num [sanitizeRun, zoomOutAnimation, defaultConfig]
  · norm_num [sanitizeOffset, clamp, defaultConfig, Point.mk.injEq]
  · simp only [ne_eq, Point.mk.injEq]
    norm_num

/-- C6 (amended): for every state whose zoom factor is within the zoom
bounds and whose initial zoom factor and initial offset agree with the
geometry (as `_onResize` establishes), after `_sanitize` and completion of
whichever correction animation it starts, the offset is a fixed point of
`sanitizeOffset` — except in the one uncorrected case, zoom factor exactly 1
below `zoomOutFactor` with an out-of-bounds offset, where settle starts no
animation and the offset stays out of bounds (hypothesis `hexc` excludes
exactly that case). -/
theorem settle_offset_fixpoint (cfg : Config) (geom : Geom) (st : State)
    (frames : List ℚ)
    (hframes : ∀ p ∈ frames, 0 ≤ p ∧ p ≤ 1)
    (hminpos : 0 < cfg.minZoom)
    (h1min : cfg.minZoom ≤ 1) (h1max : 1 ≤ cfg.maxZoom)
    (hzmin : cfg.minZoom ≤ st.zoomFactor) (hzmax : st.zoomFactor ≤ cfg.maxZoom)
    (hhp : 0 ≤ cfg.horizontalPadding) (hvp : 0 ≤ cfg.verticalPadding)
    (hw : 0 < geom.childWidth) (hh : 0 < geom.childHeight)
    (hizf : st.initialZoomFactor = updateInitialZoomFactor geom)
    (hio : st.initialOffset = computeInitialOffset geom st.initialZoomFactor)
    (hexc : st.zoomFactor = 1 → sanitizeOffset cfg geom st st.offset = st.offset) :
    sanitizeOffset cfg geom (sanitizeRun cfg geom st frames)
        (sanitizeRun cfg geom st frames).offset
      = (sanitizeRun cfg geom st frames).offset := by
  unfold sanitizeRun
  by_cases hzo : st.zoomFactor < cfg.zoomOutFactor
  · rw [if_pos hzo]
    unfold zoomOutAnimation
    by_cases hz1 : st.zoomFactor = 1
    · rw [if_pos hz1]
      exact hexc hz1
    · rw [if_neg hz1]
      have hz0 : st.zoomFactor ≠ 0 := ne_of_gt (lt_of_lt_of_le hminpos hzmin)
      have hzsub : 1 - st.zoomFactor ≠ 0 := sub_ne_zero.mpr fun h => hz1 h.symm
      have hfold := zoomOut_fold cfg (getCurrentZoomCenter st) st.zoomFactor
        hminpos h1min h1max frames hframes hzmin hzmax st hzmin hzmax
      have hc := getCurrentZoomCenter_spec st hz0 hz1
      have h1 : (zoomOutRun cfg st frames).zoomFactor = 1 := hfold.1
      have hizf' : (zoomOutRun cfg st frames).initialZoomFactor
          = st.initialZoomFactor := hfold.2.2.2.1
      have hrx : ((getCurrentZoomCenter st).x
          + (zoomOutRun cfg st frames).offset.x) * st.zoomFactor
          = (getCurrentZoomCenter st).x + st.offset.x := hfold.2.1
      have hry : ((getCurrentZoomCenter st).y
          + (zoomOutRun cfg st frames).offset.y) * st.zoomFactor
          = (getCurrentZoomCenter st).y + st.offset.y := hfold.2.2.1
      have hofx : (zoomOutRun cfg st frames).offset.x = st.initialOffset.x := by
        have hcanc : (zoomOutRun cfg st frames).offset.x
            * (st.zoomFactor * (1 - st.zoomFactor))
            = st.initialOffset.x * (st.zoomFactor * (1 - st.zoomFactor)) := by
          linear_combination (1 - st.zoomFactor) * hrx + (1 - st.zoomFactor) * hc.1
        exact mul_right_cancel₀ (mul_ne_zero hz0 hzsub) hcanc
      have hofy : (zoomOutRun cfg st frames).offset.y = st.initialOffset.y := by
        have hcanc : (zoomOutRun cfg st frames).offset.y
            * (st.zoomFactor * (1 - st.zoomFactor))
            = st.initialOffset.y * (st.zoomFactor * (1 - st.zoomFactor)) := by
          linear_combination (1 - st.zoomFactor) * hry + (1 - st.zoomFactor) * hc.2
        exact mul_right_cancel₀ (mul_ne_zero hz0 hzsub) hcanc
      have hroff : (zoomOutRun cfg st frames).offset = st.initialOffset := by
        show (⟨(zoomOutRun cfg st frames).offset.x,
               (zoomOutRun cfg st frames).offset.y⟩ : Point) = st.initialOffset
        rw [hofx, hofy]
      exact initialOffset_in_bounds cfg geom (zoomOutRun cfg st frames) h1
        (hizf'.trans hizf)
        (hroff.trans (hio.trans (by rw [hizf'])))
        hw hh hhp hvp
  · rw [if_neg hzo]
    by_cases hins : isInsaneOffset cfg geom st = true
    · rw [if_pos hins]
      exact sanitizeOffset_idem cfg geom st st.offset hhp hvp
    · rw [if_neg hins]
      have := of_not_not (by simpa [isInsaneOffset] using hins)
      exact this

/-- Witness for C6 at a concrete input: default props, a 100x100 container
with a 50x50 child (fit scale 2), zoom factor 2 with a far out-of-bounds
offset; settle takes the offset-correction branch and the corrected offset is
a fixed point of `sanitizeOffset`. -/
theorem settle_offset_fixpoint_witness :
    sanitizeOffset defaultConfig ⟨100, 100, 0, 0, 0, 0, 50, 50⟩
        (sanitizeRun defaultConfig ⟨100, 100, 0, 0, 0, 0, 50, 50⟩
          ⟨⟨500, 0⟩, 2, 2, ⟨0, 0⟩⟩ [])
        (sanitizeRun defaultConfig ⟨100, 100, 0, 0, 0, 0, 50, 50⟩
          ⟨⟨500, 0⟩, 2, 2, ⟨0, 0⟩⟩ []).offset
      = (sanitizeRun defaultConfig ⟨100, 100, 0, 0, 0, 0, 50, 50⟩
          ⟨⟨500, 0⟩, 2, 2, ⟨0, 0⟩⟩ []).offset :=
  settle_offset_fixpoint defaultConfig ⟨100, 100, 0, 0, 0, 0, 50, 50⟩
    ⟨⟨500, 0⟩, 2, 2, ⟨0, 0⟩⟩ []
    (by intro p hp; simp at hp)
    (by norm_num [defaultConfig])
    (by norm_num [defaultConfig])
    (by norm_num [defaultConfig])
    (by norm_num [defaultConfig])
    (by norm_num [defaultConfig])
    (by norm_num [defaultConfig])
    (by norm_num [defaultConfig])
    (by norm_num)
    (by norm_num)
    (by norm_num [updateInitialZoomFactor])
    (by norm_num [computeInitialOffset, Point.mk.injEq])
    (fun h => absurd h (by norm_num))

theorem scaleTo_fold_zoom (cfg : Config) (c : Point) (a b : ℚ)
    (hminpos : 0 < cfg.minZoom) (hminmax : cfg.minZoom ≤ cfg.maxZoom) :
    ∀ (frames : List ℚ) (s : State), s.zoomFactor ≠ 0 →
      ((frames ++ [1]).foldl
          (fun s' p => scaleTo cfg s' (a + p * (b - a)) c) s).zoomFactor
        = clamp cfg.minZoom cfg.maxZoom b := by
  intro frames
  induction frames with
  | nil =>
    intro s hz
    simp only [List.nil_append, List.foldl_cons, List.foldl_nil]
    show clamp cfg.minZoom cfg.maxZoom (s.zoomFactor * ((a + 1 * (b - a)) / s.zoomFactor))
      = clamp cfg.minZoom cfg.maxZoom b
    have hmul : s.zoomFactor * ((a + 1 * (b - a)) / s.zoomFactor) = a + 1 * (b - a) := by
      field_simp
    rw [hmul, show a + 1 * (b - a) = b by ring]
  | cons p rest ih =>
    intro s hz
    simp only [List.cons_append, List.foldl_cons]
    apply ih
    have he : (scaleTo cfg s (a + p * (b - a)) c).zoomFactor
        = clamp cfg.minZoom cfg.maxZoom
            (s.zoomFactor * ((a + p * (b - a)) / s.zoomFactor)) := rfl
    have hmem := clamp_mem cfg.minZoom cfg.maxZoom
      (s.zoomFactor * ((a + p * (b - a)) / s.zoomFactor)) hminmax
    rw [he]
    exact ne_of_gt (lt_of_lt_of_le hminpos hmem.1)

theorem detectDoubleTap_nofire (cfg : Config) (geom : Geom) (g : Gest) (st : State)
    (time : ℚ) (tapPoint : Point) (tapFrames endFrames : List ℚ) (fuel : ℕ)
    (hno : ¬ time - g.lastTouchStart < 300) :
    detectDoubleTapRun cfg geom g st time 1 tapPoint tapFrames endFrames fuel
      = ({ g with isDoubleTap := false, lastTouchStart := time }, st, []) := by
  unfold detectDoubleTapRun
  norm_num [hno]

theorem handleDoubleTap_noInteraction (cfg : Config) (g : Gest) (st : State)
    (tapPoint : Point) (tapFrames : List ℚ) (hhi : g.hasInteraction = false) :
    handleDoubleTapRun cfg g st tapPoint tapFrames
      = ({ g with isDoubleTap := true },
         (tapFrames ++ [1]).foldl
           (fun s' p => scaleTo cfg s'
             (st.zoomFactor + p * (st.zoomFactor + cfg.tapZoomFactor - st.zoomFactor))
             (if st.zoomFactor > st.zoomFactor + cfg.tapZoomFactor
              then getCurrentZoomCenter st else tapPoint)) st,
         [GestureEvent.doubleTap]) := by
  unfold handleDoubleTapRun
  rw [hhi]
  rfl

theorem detectDoubleTap_fire (cfg : Config) (geom : Geom) (g : Gest) (st : State)
    (time : ℚ) (tapPoint : Point) (tapFrames endFrames : List ℚ) (fuel : ℕ)
    (hfire : time - g.lastTouchStart < 300)
    (hint : g.interaction = none) (hhi : g.hasInteraction = false) :
    detectDoubleTapRun cfg geom g st time 1 tapPoint tapFrames endFrames fuel
      = ({ g with isDoubleTap := true, lastTouchStart := time },
         (tapFrames ++ [1]).foldl
           (fun s' p => scaleTo cfg s'
             (st.zoomFactor + p * (st.zoomFactor + cfg.tapZoomFactor - st.zoomFactor))
             (if st.zoomFactor > st.zoomFactor + cfg.tapZoomFactor
              then getCurrentZoomCenter st else tapPoint)) st,
         [GestureEvent.doubleTap]) := by
  have hne1 : (none = some Interaction.zoom) = False := eq_false (by decide)
  have hne2 : (none = some Interaction.drag) = False := eq_false (by decide)
  unfold detectDoubleTapRun
  rw [handleDoubleTap_noInteraction cfg g st tapPoint tapFrames hhi]
  set S := (tapFrames ++ [1]).foldl
    (fun s' p => scaleTo cfg s'
      (st.zoomFactor + p * (st.zoomFactor + cfg.tapZoomFactor - st.zoomFactor))
      (if st.zoomFactor > st.zoomFactor + cfg.tapZoomFactor
       then getCurrentZoomCenter st else tapPoint)) st with hS
  norm_num [hfire, hint, hne1, hne2]

/-- C4 counterexample: in the concrete tap scenario (defaults,
`tapZoomFactor = 1`, start zoom 1, three single-finger taps 100 ms apart),
the second tap animates the zoom factor to 2, but the third tap animates it
to 3 — further away from 1, not back toward 1. -/
theorem double_tap_toggle_counterexample :
    tapScenarioStep2.2.1.zoomFactor = 2 ∧
    tapScenarioStep3.2.1.zoomFactor = 3 ∧
    ¬ tapScenarioStep3.2.1.zoomFactor ≤ tapScenarioStep2.2.1.zoomFactor := by
  have e1 : tapScenarioStep1
      = (⟨1000, false, false, none, none⟩, ⟨⟨0, 0⟩, 1, 1, ⟨0, 0⟩⟩, []) := by
    rw [tapScenarioStep1,
      detectDoubleTap_nofire defaultConfig tapScenarioGeom ⟨0, false, false, none, none⟩
        ⟨⟨0, 0⟩, 1, 1, ⟨0, 0⟩⟩ 1000 ⟨50, 50⟩ [] [] 0 (by norm_num)]
  have e2 := detectDoubleTap_fire defaultConfig tapScenarioGeom
    ⟨1000, false, false, none, none⟩ ⟨⟨0, 0⟩, 1, 1, ⟨0, 0⟩⟩ 1100 ⟨50, 50⟩ [] [] 0
    (by norm_num) rfl rfl
  have hz2 : tapScenarioStep2.2.1.zoomFactor = 2 := by
    rw [tapScenarioStep2, e1]
    dsimp only
    rw [e2]
    dsimp only
    rw [scaleTo_fold_zoom defaultConfig _ _ _ (by norm_num [defaultConfig])
      (by norm_num [defaultConfig]) [] _ (by norm_num)]
    norm_num [clamp, defaultConfig]
  have e2g : tapScenarioStep2.1 = (⟨1100, true, false, none, none⟩ : Gest) := by
    rw [tapScenarioStep2, e1]
    dsimp only
    rw [e2]
  have e3 := detectDoubleTap_fire defaultConfig tapScenarioGeom
    (⟨1100, true, false, none, none⟩ : Gest) tapScenarioStep2.2.1 1200 ⟨50, 50⟩ [] [] 0
    (by norm_num) rfl rfl
  have hz3 : tapScenarioStep3.2.1.zoomFactor = 3 := by
    rw [tapScenarioStep3, e2g, e3]
    dsimp only
    rw [scaleTo_fold_zoom defaultConfig _ _ _ (by norm_num [defaultConfig])
      (by norm_num [defaultConfig]) [] _ (by rw [hz2]; norm_num)]
    rw [hz2]
    norm_num [clamp, defaultConfig]
  refine ⟨hz2, hz3, ?_⟩
  rw [hz2, hz3]
  norm_num

/-- C4 (amended): with `tapZoomFactor = 1` and starting zoom factor 1, a
first tap arms the timer, a second single-finger tap within 300 ms animates
the zoom factor to 2, and a third tap within 300 ms of the second animates
it further to 3 (each double tap adds `tapZoomFactor`, clamped to the zoom
bounds); it never animates back toward 1 — the back-toward-start branch
(centered on the current visual center) requires the target to be below the
current zoom, i.e. a negative `tapZoomFactor`. -/
theorem double_tap_zoom_sequence (cfg : Config) (geom : Geom) (st0 : State)
    (t1 t2 t3 : ℚ) (p1 p2 p3 : Point) (f1 f2 f3 ef : List ℚ) (fuel : ℕ)
    (htap : cfg.tapZoomFactor = 1) (hminpos : 0 < cfg.minZoom)
    (hminmax : cfg.minZoom ≤ cfg.maxZoom)
    (hmin2 : cfg.minZoom ≤ 2) (hmax2 : 2 ≤ cfg.maxZoom)
    (hmin3 : cfg.minZoom ≤ 3) (hmax3 : 3 ≤ cfg.maxZoom)
    (hz : st0.zoomFactor = 1)
    (h1 : 300 ≤ t1) (h2 : t2 - t1 < 300) (h3 : t3 - t2 < 300) :
    ∃ r1 r2 r3 : Gest × State × List GestureEvent,
      r1 = detectDoubleTapRun cfg geom ⟨0, false, false, none, none⟩ st0
        t1 1 p1 f1 ef fuel ∧
      r2 = detectDoubleTapRun cfg geom r1.1 r1.2.1 t2 1 p2 f2 ef fuel ∧
      r3 = detectDoubleTapRun cfg geom r2.1 r2.2.1 t3 1 p3 f3 ef fuel ∧
      r1.2.1 = st0 ∧ r2.2.1.zoomFactor = 2 ∧ r3.2.1.zoomFactor = 3 := by
  have hno1 : ¬ t1 - (⟨0, false, false, none, none⟩ : Gest).lastTouchStart < 300 := by
    show ¬ t1 - (0 : ℚ) < 300
    rw [sub_zero]
    exact not_lt.mpr h1
  have e1 := detectDoubleTap_nofire cfg geom ⟨0, false, false, none, none⟩ st0
    t1 p1 f1 ef fuel hno1
  have e2 := detectDoubleTap_fire cfg geom (⟨t1, false, false, none, none⟩ : Gest) st0
    t2 p2 f2 ef fuel h2 rfl rfl
  have hz0 : st0.zoomFactor ≠ 0 := by rw [hz]; norm_num
  have hS2zoom : ((f2 ++ [1]).foldl
      (fun s' p => scaleTo cfg s'
        (st0.zoomFactor + p * (st0.zoomFactor + cfg.tapZoomFactor - st0.zoomFactor))
        (if st0.zoomFactor > st0.zoomFactor + cfg.tapZoomFactor
         then getCurrentZoomCenter st0 else p2)) st0).zoomFactor = 2 := by
    rw [scaleTo_fold_zoom cfg _ _ _ hminpos hminmax f2 st0 hz0]
    rw [hz, htap, show (1 : ℚ) + 1 = 2 from by norm_num]
    exact clamp_of_mem _ _ _ hmin2 hmax2
  have e3 := detectDoubleTap_fire cfg geom (⟨t2, true, false, none, none⟩ : Gest)
    ((f2 ++ [1]).foldl
      (fun s' p => scaleTo cfg s'
        (st0.zoomFactor + p * (st0.zoomFactor + cfg.tapZoomFactor - st0.zoomFactor))
        (if st0.zoomFactor > st0.zoomFactor + cfg.tapZoomFactor
         then getCurrentZoomCenter st0 else p2)) st0)
    t3 p3 f3 ef fuel h3 rfl rfl
  have hS3zoom : ∀ S2 : State, S2.zoomFactor = 2 →
      ((f3 ++ [1]).foldl
        (fun s' p => scaleTo cfg s'
          (S2.zoomFactor + p * (S2.zoomFactor + cfg.tapZoomFactor - S2.zoomFactor))
          (if S2.zoomFactor > S2.zoomFactor + cfg.tapZoomFactor
           then getCurrentZoomCenter S2 else p3)) S2).zoomFactor = 3 := by
    intro S2 hS2
    rw [scaleTo_fold_zoom cfg _ _ _ hminpos hminmax f3 S2 (by rw [hS2]; norm_num)]
    rw [hS2, htap, show (2 : ℚ) + 1 = 3 from by norm_num]
    exact clamp_of_mem _ _ _ hmin3 hmax3
  refine ⟨_, _, _, rfl, rfl, rfl, ?_, ?_, ?_⟩
  · rw [e1]
  · rw [e1]
    dsimp only
    rw [e2]
    dsimp only
    exact hS2zoom
  · rw [e1]
    dsimp only
    rw [e2]
    dsimp only
    rw [e3]
    dsimp only
    exact hS3zoom _ hS2zoom

/-- Witness for C4 at a concrete input: the tap scenario of the
counterexample, through the amended theorem. -/
theorem double_tap_zoom_sequence_witness :
    ∃ r1 r2 r3 : Gest × State × List GestureEvent,
      r1 = detectDoubleTapRun defaultConfig tapScenarioGeom
        ⟨0, false, false, none, none⟩ ⟨⟨0, 0⟩, 1, 1, ⟨0, 0⟩⟩ 1000 1 ⟨50, 50⟩ [] [] 0 ∧
      r2 = detectDoubleTapRun defaultConfig tapScenarioGeom r1.1 r1.2.1
        1100 1 ⟨50, 50⟩ [] [] 0 ∧
      r3 = detectDoubleTapRun defaultConfig tapScenarioGeom r2.1 r2.2.1
        1200 1 ⟨50, 50⟩ [] [] 0 ∧
      r1.2.1 = ⟨⟨0, 0⟩, 1, 1, ⟨0, 0⟩⟩ ∧ r2.2.1.zoomFactor = 2 ∧ r3.2.1.zoomFactor = 3 :=
  double_tap_zoom_sequence defaultConfig tapScenarioGeom ⟨⟨0, 0⟩, 1, 1, ⟨0, 0⟩⟩
    1000 1100 1200 ⟨50, 50⟩ ⟨50, 50⟩ ⟨50, 50⟩ [] [] [] [] 0
    rfl (by norm_num [defaultConfig]) (by norm_num [defaultConfig])
    (by norm_num [defaultConfig]) (by norm_num [defaultConfig])
    (by norm_num [defaultConfig]) (by norm_num [defaultConfig])
    rfl (by norm_num) (by norm_num) (by norm_num)

end PinchZoom
